import Mathlib

/-!
Verification development for the cursedclipper media ingest and clip export
pipeline (Rust sources under `src-tauri/src/tooling/`).  The Rust functions
relevant to the checked claims are embedded shallowly: `f64` values are
modelled by an inductive wrapper around `ℚ` that keeps track of the IEEE
special values, machine integers by `ℕ` with explicit saturation, and
fallible functions by `Option`/`Except`.
-/

set_option autoImplicit false

/- Mathlib seals the kernel-computable `Rat` operations behind `irreducible`;
restore reducibility so that concrete runs of the embedded pipeline can be
checked by `decide`. -/
set_option allowUnsafeReducibility true in
attribute [semireducible] Rat.mul Rat.inv Rat.div Rat.add Rat.sub Rat.neg Rat.normalize Rat.blt

namespace CursedClipper

/-! ## Rust string primitives (str::trim, to_lowercase, char classes) -/

def isRustWhitespace (c : Char) : Bool := c.isWhitespace

/-- Model of Rust `char::is_control` (the Unicode Cc category). -/
def isRustControl (c : Char) : Bool :=
  c.val < 0x20 || (0x7F ≤ c.val && c.val ≤ 0x9F)

def rustTrimList (l : List Char) : List Char :=
  ((l.dropWhile isRustWhitespace).reverse.dropWhile isRustWhitespace).reverse

/-- Model of Rust `str::trim`. -/
def rustTrim (s : String) : String := ⟨rustTrimList s.data⟩

/-- Model of Rust `str::to_lowercase` (ASCII-level; the settings values the
program compares against are ASCII keywords). -/
def rustToLowercase (s : String) : String := ⟨s.data.map Char.toLower⟩

/-- Model of Rust `u8::to_ascii_lowercase` lifted to strings. -/
def asciiLowerChar (c : Char) : Char :=
  if 'A' ≤ c ∧ c ≤ 'Z' then Char.ofNat (c.toNat + 32) else c

def toAsciiLowercase (s : String) : String := ⟨s.data.map asciiLowerChar⟩

/-- Model of Rust `str::eq_ignore_ascii_case`. -/
def eqIgnoreAsciiCase (a b : String) : Bool :=
  a.data.map asciiLowerChar == b.data.map asciiLowerChar

/-- Model of Rust `str::ends_with` (on the character lists). -/
def rustEndsWith (s suffix : String) : Bool :=
  suffix.data.isSuffixOf s.data

/-! ## A model of `f64` keeping the special values explicit -/

inductive F64 where
  | nan
  | posInf
  | negInf
  | fin (q : ℚ)
deriving DecidableEq, Repr

namespace F64

def isFinite : F64 → Bool
  | fin _ => true
  | _ => false

/-- IEEE `<=` (false whenever NaN is involved). -/
def le : F64 → F64 → Bool
  | nan, _ => false
  | _, nan => false
  | negInf, _ => true
  | _, posInf => true
  | posInf, _ => false
  | _, negInf => false
  | fin a, fin b => decide (a ≤ b)

/-- IEEE `<` (false whenever NaN is involved). -/
def lt : F64 → F64 → Bool
  | nan, _ => false
  | _, nan => false
  | _, negInf => false
  | negInf, _ => true
  | posInf, _ => false
  | _, posInf => true
  | fin a, fin b => decide (a < b)

def neg : F64 → F64
  | nan => nan
  | posInf => negInf
  | negInf => posInf
  | fin q => fin (-q)

def add : F64 → F64 → F64
  | nan, _ => nan
  | _, nan => nan
  | posInf, negInf => nan
  | negInf, posInf => nan
  | posInf, _ => posInf
  | _, posInf => posInf
  | negInf, _ => negInf
  | _, negInf => negInf
  | fin a, fin b => fin (a + b)

def sub : F64 → F64 → F64
  | nan, _ => nan
  | _, nan => nan
  | posInf, posInf => nan
  | negInf, negInf => nan
  | posInf, _ => posInf
  | negInf, _ => negInf
  | _, posInf => negInf
  | _, negInf => posInf
  | fin a, fin b => fin (a - b)

def mul : F64 → F64 → F64
  | nan, _ => nan
  | _, nan => nan
  | posInf, posInf => posInf
  | posInf, negInf => negInf
  | negInf, posInf => negInf
  | negInf, negInf => posInf
  | posInf, fin b => if b = 0 then nan else if 0 < b then posInf else negInf
  | fin a, posInf => if a = 0 then nan else if 0 < a then posInf else negInf
  | negInf, fin b => if b = 0 then nan else if 0 < b then negInf else posInf
  | fin a, negInf => if a = 0 then nan else if 0 < a then negInf else posInf
  | fin a, fin b => fin (a * b)

def div : F64 → F64 → F64
  | nan, _ => nan
  | _, nan => nan
  | posInf, posInf => nan
  | posInf, negInf => nan
  | negInf, posInf => nan
  | negInf, negInf => nan
  | posInf, fin b => if b < 0 then negInf else posInf
  | negInf, fin b => if b < 0 then posInf else negInf
  | fin _, posInf => fin 0
  | fin _, negInf => fin 0
  | fin a, fin b =>
      if b = 0 then (if a = 0 then nan else if 0 < a then posInf else negInf)
      else fin (a / b)

def abs : F64 → F64
  | nan => nan
  | posInf => posInf
  | negInf => posInf
  | fin q => fin |q|

/-- Rust `f64::max`: if one argument is NaN the other is returned. -/
def rustMax : F64 → F64 → F64
  | nan, b => b
  | a, nan => a
  | a, b => if le a b then b else a

/-- Rust `f64::round`: round half away from zero (on the rational payload). -/
def rustRoundQ (q : ℚ) : ℤ :=
  if 0 ≤ q then ⌊q + 1/2⌋ else ⌈q - 1/2⌉

def round : F64 → F64
  | nan => nan
  | posInf => posInf
  | negInf => negInf
  | fin q => fin (rustRoundQ q)

/-- Rust saturating cast `as u32` from `f64`. -/
def toU32 : F64 → ℕ
  | nan => 0
  | negInf => 0
  | posInf => 4294967295
  | fin q => if q < 0 then 0 else min q.floor.toNat 4294967295

end F64

/-- Saturating `f64 → u32` of an integer already produced by `round`. -/
def qClamp (v lo hi : ℚ) : ℚ := min (max v lo) hi

/-! ## Model of Rust `f64::from_str` (sign, `inf`/`infinity`/`nan`, decimal
with optional fraction and exponent; finite results kept exact in `ℚ`) -/

def digitsToNat (l : List Char) : ℕ :=
  l.foldl (fun acc c => acc * 10 + (c.toNat - '0'.toNat)) 0

def applyExponent (m : ℚ) (l : List Char) : Option ℚ :=
  let (neg, rest) :=
    match l with
    | '-' :: r => (true, r)
    | '+' :: r => (false, r)
    | r => (false, r)
  if rest = [] ∨ ¬ rest.all Char.isDigit then none
  else
    let e := digitsToNat rest
    some (if neg then m / (10 ^ e : ℚ) else m * (10 ^ e : ℚ))

def parseDecMagnitude (l : List Char) : Option ℚ :=
  let (ip, rest) := l.span Char.isDigit
  match rest with
  | [] => if ip = [] then none else some (digitsToNat ip : ℚ)
  | '.' :: rest2 =>
      let (fp, rest3) := rest2.span Char.isDigit
      if ip = [] ∧ fp = [] then none
      else
        let mant : ℚ := (digitsToNat ip : ℚ) + (digitsToNat fp : ℚ) / (10 ^ fp.length : ℚ)
        match rest3 with
        | [] => some mant
        | e :: rest4 => if e = 'e' ∨ e = 'E' then applyExponent mant rest4 else none
  | e :: rest2 =>
      if (e = 'e' ∨ e = 'E') ∧ ip ≠ [] then applyExponent (digitsToNat ip : ℚ) rest2
      else none

def parseF64Chars (l : List Char) : Option F64 :=
  let (neg, rest) :=
    match l with
    | '-' :: r => (true, r)
    | '+' :: r => (false, r)
    | r => (false, r)
  let low := rest.map asciiLowerChar
  if low = "inf".data ∨ low = "infinity".data then
    some (if neg then F64.negInf else F64.posInf)
  else if low = "nan".data then some F64.nan
  else (parseDecMagnitude rest).map (fun q => F64.fin (if neg then -q else q))

/-- Model of Rust `"...".parse::<f64>()`. -/
def parseRustF64 (s : String) : Option F64 := parseF64Chars s.data

/-! ## export_pipeline.rs: aspect parsing and render resolution -/

/-- Split at the first `':'` like Rust `str::split_once(':')`. -/
def splitOnceColon : List Char → Option (List Char × List Char)
  | [] => none
  | c :: rest =>
      if c = ':' then some ([], rest)
      else (splitOnceColon rest).map (fun p => (c :: p.1, p.2))

/-- `parse_aspect_ratio` from `export_pipeline.rs`. -/
def parse_aspect_ratio (value : String) : Option F64 :=
  let normalized := (rustTrim value).data.filter (fun c => c ≠ ' ')
  if normalized = [] then none
  else
    match splitOnceColon normalized with
    | some (left, right) => do
        let width ← parseF64Chars left
        let height ← parseF64Chars right
        if F64.le width (F64.fin 0) ∨ F64.le height (F64.fin 0) then none
        else some (F64.div width height)
    | none => do
        let ratio ← parseF64Chars normalized
        if F64.le ratio (F64.fin 0) then none else some ratio

/-- `pick_render_resolution` from `export_pipeline.rs`. -/
def pick_render_resolution (aspect : String) : ℕ × ℕ :=
  let ratio := (parse_aspect_ratio aspect).getD (F64.fin (16/9 : ℚ))
  if F64.le ratio (F64.fin (68/100 : ℚ)) then (1080, 1920)
  else if F64.le (F64.fin (135/100 : ℚ)) ratio then (1920, 1080)
  else (1080, 1080)

/-- `normalize_target_dimension` from `export_pipeline.rs` (`value : u32`). -/
def normalize_target_dimension (value : ℕ) : Option ℕ :=
  if ¬ (240 ≤ value ∧ value ≤ 4320) then none
  else
    let even := if value % 2 = 0 then value else value - 1
    if even < 240 then none else some even

/-- `normalize_target_dimension_from_f64` from `export_pipeline.rs`. -/
def normalize_target_dimension_from_f64 (value : F64) : Option ℕ :=
  if ¬ value.isFinite then none
  else
    let rounded := value.round
    if F64.lt rounded (F64.fin 2) then none
    else normalize_target_dimension rounded.toU32

/-- `align_resolution_to_aspect` from `export_pipeline.rs`. -/
def align_resolution_to_aspect (aspect : String) (width height : ℕ) : ℕ × ℕ :=
  let target_ratio := (parse_aspect_ratio aspect).getD
    (F64.div (F64.fin (width : ℚ)) (F64.fin (height : ℚ)))
  if F64.le target_ratio (F64.fin 0) then (width, height)
  else
    let actual_ratio := F64.div (F64.fin (width : ℚ)) (F64.fin (height : ℚ))
    let ratio_delta := F64.div (F64.abs (F64.sub actual_ratio target_ratio))
      (F64.rustMax target_ratio (F64.fin (1/10000 : ℚ)))
    if F64.le ratio_delta (F64.fin (3/100 : ℚ)) then (width, height)
    else
      let width_based_height :=
        normalize_target_dimension_from_f64 (F64.div (F64.fin (width : ℚ)) target_ratio)
      let height_based_width :=
        normalize_target_dimension_from_f64 (F64.mul (F64.fin (height : ℚ)) target_ratio)
      let width_candidate := width_based_height.map (fun ch => (width, ch))
      let height_candidate := height_based_width.map (fun cw => (cw, height))
      let score := fun (c : ℕ × ℕ) =>
        let ratio_error := F64.div
          (F64.abs (F64.sub (F64.div (F64.fin (c.1 : ℚ)) (F64.fin (c.2 : ℚ))) target_ratio))
          (F64.rustMax target_ratio (F64.fin (1/10000 : ℚ)))
        F64.add (F64.mul ratio_error (F64.fin 10000))
          (F64.fin ((|(c.1 : ℤ) - (width : ℤ)| + |(c.2 : ℤ) - (height : ℤ)| : ℤ) : ℚ))
      match width_candidate, height_candidate with
      | some l, some r => if F64.le (score l) (score r) then l else r
      | some c, none => c
      | none, some c => c
      | none, none => pick_render_resolution aspect

/-- `pick_render_resolution_with_override` from `export_pipeline.rs`. -/
def pick_render_resolution_with_override (aspect : String)
    (output_width output_height : Option ℕ) : ℕ × ℕ :=
  match output_width, output_height with
  | some raw_width, some raw_height =>
      match normalize_target_dimension raw_width, normalize_target_dimension raw_height with
      | some width, some height => align_resolution_to_aspect aspect width height
      | _, _ => pick_render_resolution aspect
  | _, _ => pick_render_resolution aspect

/-- `clamp_export_time` from `export_pipeline.rs`. -/
def clamp_export_time (value : F64) : F64 :=
  if ¬ value.isFinite then F64.fin 0
  else
    match value with
    | F64.fin q => F64.fin (qClamp q 0 (60 * 60 * 10))
    | v => v

/-- The clip range check of `export_clips_batch_sync`
(`end <= start + 0.1` rejects the task). -/
def clipRangeInvalid (start «end» : F64) : Bool :=
  F64.le (clamp_export_time «end») (F64.add (clamp_export_time start) (F64.fin (1/10 : ℚ)))

/-! ## runtime.rs: trusted download URL validation -/

/-- The component view of a URL already parsed by the `url` crate
(`Url::parse` has succeeded; `username()`, `password()`, `port()` and
`host_str()` are the accessors used by the source). -/
structure ParsedUrl where
  scheme : String
  username : String
  password : Option String
  host : Option String
  port : Option ℕ
deriving DecidableEq, Repr

def TRUSTED_DOWNLOAD_HOSTS : List String :=
  ["github.com", "objects.githubusercontent.com", "www.gyan.dev", "gyan.dev"]

/-- `trusted_host_match` from `runtime.rs`. -/
def trusted_host_match (host allowed_host : String) : Bool :=
  eqIgnoreAsciiCase host allowed_host ||
    rustEndsWith (toAsciiLowercase host) ("." ++ toAsciiLowercase allowed_host)

/-- `ensure_trusted_https_url` from `runtime.rs` (over the parsed URL). -/
def ensure_trusted_https_url (parsed : ParsedUrl) : Except String ParsedUrl :=
  if parsed.scheme ≠ "https" then .error "Only HTTPS download sources are allowed."
  else if parsed.username ≠ "" ∨ parsed.password.isSome then
    .error "Source URL must not include credentials."
  else if parsed.port.isSome then .error "Source URL must not include a custom port."
  else
    match parsed.host with
    | none => .error "Failed to resolve source domain."
    | some host =>
        if TRUSTED_DOWNLOAD_HOSTS.any (fun allowed => trusted_host_match host allowed) then
          .ok parsed
        else .error ("Untrusted download source: " ++ host)

/-! ## media_io.rs: yt-dlp progress protocol -/

/-- `parse_progress_ratio_from_parts` from `media_io.rs` (`f32` ratios
modelled exactly in `ℚ`). -/
def parse_progress_ratio_from_parts
    (downloaded total total_estimate : Option ℕ) : Option ℚ :=
  match downloaded with
  | none => none
  | some d =>
      match total.or total_estimate with
      | none => none
      | some baseline =>
          if baseline = 0 then none
          else some (qClamp ((d : ℚ) / (baseline : ℚ)) 0 1)

/-- The data carried by one `CF_PROGRESS` line, after field splitting, plus
the elapsed time on the `last_emit` stopwatch when the line is processed. -/
structure YtdlpProgressInput where
  downloaded : Option ℕ
  total : Option ℕ
  total_estimate : Option ℕ
  percent_hint : Option ℚ
  elapsed_ms : ℕ
deriving DecidableEq, Repr

/-- The ratio computed by `maybe_emit_ytdlp_progress` before the monotonic
adjustment: downloaded over total-or-estimate, else the percent hint
(divided by 100 and clamped), else 0. -/
def ytdlp_raw_ratio (input : YtdlpProgressInput) : ℚ :=
  ((parse_progress_ratio_from_parts input.downloaded input.total input.total_estimate).or
    (input.percent_hint.map (fun value => qClamp (value / 100) 0 1))).getD 0

/-- The ratio after `if *last_ratio >= 0.0 { ratio = ratio.max(*last_ratio) }`. -/
def ytdlp_adjusted_ratio (input : YtdlpProgressInput) (last_ratio : ℚ) : ℚ :=
  if 0 ≤ last_ratio then max (ytdlp_raw_ratio input) last_ratio
  else ytdlp_raw_ratio input

/-- The `should_emit` test of `maybe_emit_ytdlp_progress`. -/
def ytdlp_should_emit (input : YtdlpProgressInput) (last_ratio : ℚ) : Bool :=
  let ratio := ytdlp_adjusted_ratio input last_ratio
  decide ((1/100 : ℚ) ≤ |ratio - last_ratio|) &&
    (decide (240 < input.elapsed_ms) || decide ((995/1000 : ℚ) ≤ ratio))

/-- `maybe_emit_ytdlp_progress` from `media_io.rs`: returns the ratio carried
by the emitted progress event (if any) and the updated `last_ratio` slot.
The emitted event's `progress` field is this ratio scaled by `0.9`. -/
def maybe_emit_ytdlp_progress (input : YtdlpProgressInput) (last_ratio : ℚ) :
    Option ℚ × ℚ :=
  let ratio := ytdlp_adjusted_ratio input last_ratio
  if ytdlp_should_emit input last_ratio then (some ratio, ratio)
  else (none, last_ratio)

/-- Modelled from the spec: the emission condition exactly as the claim words
it — the (raw) ratio changed by at least 0.01 and 240 ms elapsed since the
previous emission, or the ratio reached at least 0.995. -/
def specClaimedEmit (input : YtdlpProgressInput) (last_ratio : ℚ) : Bool :=
  let ratio := ytdlp_raw_ratio input
  (decide ((1/100 : ℚ) ≤ |ratio - last_ratio|) && decide (240 ≤ input.elapsed_ms)) ||
    decide ((995/1000 : ℚ) ≤ ratio)

/-- The stream of ratios carried by the progress events emitted while folding
`maybe_emit_ytdlp_progress` over a sequence of `CF_PROGRESS` lines. -/
def ytdlp_progress_events : List YtdlpProgressInput → ℚ → List ℚ
  | [], _ => []
  | input :: rest, last_ratio =>
      match maybe_emit_ytdlp_progress input last_ratio with
      | (some ratio, new_last) => ratio :: ytdlp_progress_events rest new_last
      | (none, new_last) => ytdlp_progress_events rest new_last

/-! ## runtime.rs: settings normalization and persistence -/

structure RuntimeToolsSettings where
  ytdlp_mode : String
  ytdlp_custom_path : Option String
  ffmpeg_custom_path : Option String
  ffprobe_custom_path : Option String
  projects_root_dir : Option String
  auto_update_ytdlp : Bool
  prefer_bundled_ffmpeg : Bool
  ui_language : String
deriving DecidableEq, Repr

/-- `sanitize_optional_path` from `runtime.rs`. -/
def sanitize_optional_path : Option String → Except String (Option String)
  | none => .ok none
  | some raw =>
      let trimmed := rustTrim raw
      if trimmed.isEmpty then .ok none
      else if 512 < trimmed.utf8ByteSize then .error "Path is too long."
      else if trimmed.data.any isRustControl then
        .error "Path contains invalid control characters."
      else .ok (some trimmed)

/-- `normalize_settings` from `runtime.rs`. -/
def normalize_settings (settings : RuntimeToolsSettings) :
    Except String RuntimeToolsSettings := do
  let mode0 := rustToLowercase (rustTrim settings.ytdlp_mode)
  let mode := if mode0 ≠ "managed" ∧ mode0 ≠ "custom" ∧ mode0 ≠ "system" then "managed" else mode0
  let ytdlp_custom_path ← sanitize_optional_path settings.ytdlp_custom_path
  let ffmpeg_custom_path ← sanitize_optional_path settings.ffmpeg_custom_path
  let ffprobe_custom_path ← sanitize_optional_path settings.ffprobe_custom_path
  let projects_root_dir ← sanitize_optional_path settings.projects_root_dir
  let lang0 := rustToLowercase (rustTrim settings.ui_language)
  let ui_language := if lang0 ≠ "en" ∧ lang0 ≠ "ru" then "en" else lang0
  .ok { settings with
        ytdlp_mode := mode, ytdlp_custom_path, ffmpeg_custom_path,
        ffprobe_custom_path, projects_root_dir, ui_language }

/-- The JSON value layer of `serde_json` (only the shapes this settings
struct serializes to). -/
inductive Jsonish where
  | jnull
  | jbool (b : Bool)
  | jstr (s : String)
  | jobj (fields : List (String × Jsonish))
deriving BEq, Repr

def optStringToJson : Option String → Jsonish
  | none => .jnull
  | some s => .jstr s

/-- Serialization of `RuntimeToolsSettings` (serde derive with
`rename_all = "camelCase"`). -/
def settingsToJson (settings : RuntimeToolsSettings) : Jsonish :=
  .jobj [("ytdlpMode", .jstr settings.ytdlp_mode),
         ("ytdlpCustomPath", optStringToJson settings.ytdlp_custom_path),
         ("ffmpegCustomPath", optStringToJson settings.ffmpeg_custom_path),
         ("ffprobeCustomPath", optStringToJson settings.ffprobe_custom_path),
         ("projectsRootDir", optStringToJson settings.projects_root_dir),
         ("autoUpdateYtdlp", .jbool settings.auto_update_ytdlp),
         ("preferBundledFfmpeg", .jbool settings.prefer_bundled_ffmpeg),
         ("uiLanguage", .jstr settings.ui_language)]

def jsonLookup : List (String × Jsonish) → String → Option Jsonish
  | [], _ => none
  | (k, v) :: rest, key => if k = key then some v else jsonLookup rest key

def jsonString : Option Jsonish → Except String String
  | some (.jstr s) => .ok s
  | _ => .error "Failed to parse settings: expected a string"

def jsonOptString : Option Jsonish → Except String (Option String)
  | some (.jstr s) => .ok (some s)
  | some .jnull => .ok none
  | _ => .error "Failed to parse settings: expected an optional string"

def jsonBool : Option Jsonish → Except String Bool
  | some (.jbool b) => .ok b
  | _ => .error "Failed to parse settings: expected a bool"

/-- Deserialization of `RuntimeToolsSettings`; `uiLanguage` carries
`serde(default = "default_ui_language")`, so a missing field becomes `"en"`. -/
def settingsFromJson : Jsonish → Except String RuntimeToolsSettings
  | .jobj fields => do
      let ytdlp_mode ← jsonString (jsonLookup fields "ytdlpMode")
      let ytdlp_custom_path ← jsonOptString (jsonLookup fields "ytdlpCustomPath")
      let ffmpeg_custom_path ← jsonOptString (jsonLookup fields "ffmpegCustomPath")
      let ffprobe_custom_path ← jsonOptString (jsonLookup fields "ffprobeCustomPath")
      let projects_root_dir ← jsonOptString (jsonLookup fields "projectsRootDir")
      let auto_update_ytdlp ← jsonBool (jsonLookup fields "autoUpdateYtdlp")
      let prefer_bundled_ffmpeg ← jsonBool (jsonLookup fields "preferBundledFfmpeg")
      let ui_language ←
        match jsonLookup fields "uiLanguage" with
        | none => Except.ok "en"
        | v => jsonString v
      .ok { ytdlp_mode, ytdlp_custom_path, ffmpeg_custom_path, ffprobe_custom_path,
            projects_root_dir, auto_update_ytdlp, prefer_bundled_ffmpeg, ui_language }
  | _ => .error "Failed to parse settings: expected an object"

/-- `save_settings_internal` from `runtime.rs`: normalize, then serialize the
normalized value to the settings file (the written payload is returned). -/
def save_settings_internal (settings : RuntimeToolsSettings) : Except String Jsonish :=
  (normalize_settings settings).map settingsToJson

/-- `load_settings` from `runtime.rs`, applied to the stored payload:
parse, then normalize. -/
def load_settings (stored : Jsonish) : Except String RuntimeToolsSettings :=
  (settingsFromJson stored).bind normalize_settings

/-- Saving then loading back, as the round trip of the two functions above. -/
def save_then_load (settings : RuntimeToolsSettings) : Except String RuntimeToolsSettings :=
  (save_settings_internal settings).bind load_settings

/-! ## export_pipeline.rs: subtitle layout (word filter, chunking, events) -/

structure ExportTranscriptWord where
  id : String
  text : String
  start : ℚ
  «end» : ℚ
deriving DecidableEq, Repr

structure SubtitleRenderProfile where
  animation : String
  position : String
  font_family : String
  font_size : ℕ
  line_height : ℚ
  max_words_per_line : ℕ
  max_chars_per_line : ℕ
  max_lines : ℕ
  safe_margin_x : ℕ
  safe_margin_y : ℕ
  primary_color : String
  secondary_color : String
  outline_color : String
  shadow_color : String
  outline_width : ℚ
  shadow_depth : ℚ
  bold : Bool
  italic : Bool
  all_caps : Bool
  letter_spacing : ℚ
  fade_in_ms : ℕ
  fade_out_ms : ℕ
  highlight_important_words : Bool
deriving DecidableEq, Repr

structure ClipBatchSubtitlePayload where
  enabled : Bool
  preset_id : String
  preset_name : Option String
  render_profile : SubtitleRenderProfile
  words : List ExportTranscriptWord
deriving DecidableEq, Repr

structure ClipSubtitleRenderContext where
  clip_start : ℚ
  clip_end : ℚ
  target_w : ℕ
  target_h : ℕ
  subtitle_offset_x : ℚ
  subtitle_offset_y : ℚ
  subtitle_box_width : ℚ
  subtitle_box_height : ℚ
deriving DecidableEq, Repr

structure ClipSubtitleWord where
  text : String
  start : ℚ
  «end» : ℚ
  emphasis : Bool
deriving DecidableEq, Repr

def rustToUppercase (s : String) : String := ⟨s.data.map Char.toUpper⟩

/-- The whitespace-separated tokens of a character list
(Rust `str::split_whitespace`). -/
def splitWsAux : List Char → List Char → List (List Char)
  | [], acc => if acc.isEmpty then [] else [acc.reverse]
  | c :: rest, acc =>
      if isRustWhitespace c then
        if acc.isEmpty then splitWsAux rest [] else acc.reverse :: splitWsAux rest []
      else splitWsAux rest (c :: acc)

def joinWithSpace : List (List Char) → List Char
  | [] => []
  | [token] => token
  | token :: rest => token ++ ' ' :: joinWithSpace rest

/-- Rust `str::split_whitespace().collect::<Vec<_>>().join(" ")`. -/
def collapseWhitespace (s : String) : String :=
  ⟨joinWithSpace (splitWsAux s.data [])⟩

/-- `normalize_subtitle_word_text` from `export_pipeline.rs`
(the `replace` calls are single-character substitutions). -/
def normalize_subtitle_word_text (value : String) (all_caps : Bool) : String :=
  let trimmed := rustTrim value
  if trimmed.isEmpty then ""
  else
    let collapsed := collapseWhitespace trimmed
    let collapsed : String :=
      ⟨collapsed.data.map (fun c => if c = '\n' ∨ c = '\r' then ' ' else c)⟩
    let collapsed : String :=
      ⟨collapsed.data.map (fun c => if c = '\x7b' then '(' else if c = '\x7d' then ')' else c)⟩
    if all_caps then rustToUppercase collapsed else collapsed

/-- `is_sentence_boundary_token` from `export_pipeline.rs`. -/
def is_sentence_boundary_token (value : String) : Bool :=
  rustEndsWith value "." || rustEndsWith value "!" ||
    rustEndsWith value "?" || rustEndsWith value "…"

/-- `is_emphasis_candidate` from `export_pipeline.rs`. -/
def is_emphasis_candidate (value : String) : Bool :=
  let letters_count := (value.data.filter Char.isAlpha).length
  if letters_count < 5 then false
  else if 8 ≤ letters_count then true
  else
    let has_digit := value.data.any Char.isDigit
    let uppercase_count := (value.data.filter Char.isUpper).length
    has_digit || decide ((55/100 : ℚ) ≤ (uppercase_count : ℚ) / (letters_count : ℚ))

/-- Rust `str::chars().count()`. -/
def charsCount (s : String) : ℕ := s.data.length

def natClamp (v lo hi : ℕ) : ℕ := min (max v lo) hi

/-- `(x).round() as u32` followed by `.clamp(lo, hi)`, for finite `x : ℚ`. -/
def roundClampU32 (v : ℚ) (lo hi : ℕ) : ℕ :=
  let r := F64.rustRoundQ v
  let asU32 := if r < 0 then 0 else min r.toNat 4294967295
  natClamp asU32 lo hi

def safe_box_width (context : ClipSubtitleRenderContext) : ℚ :=
  qClamp context.subtitle_box_width (55/100) (165/100)

def safe_box_height (context : ClipSubtitleRenderContext) : ℚ :=
  qClamp context.subtitle_box_height (55/100) (165/100)

def effective_max_words_per_line (profile : SubtitleRenderProfile)
    (context : ClipSubtitleRenderContext) : ℕ :=
  roundClampU32 ((profile.max_words_per_line : ℚ) * safe_box_width context) 2 14

def effective_max_chars_per_line (profile : SubtitleRenderProfile)
    (context : ClipSubtitleRenderContext) : ℕ :=
  roundClampU32 ((profile.max_chars_per_line : ℚ) * safe_box_width context) 12 64

def effective_max_lines (profile : SubtitleRenderProfile)
    (context : ClipSubtitleRenderContext) : ℕ :=
  roundClampU32 ((profile.max_lines : ℚ) * safe_box_height context) 1 6

def effective_chunk_word_limit (profile : SubtitleRenderProfile)
    (context : ClipSubtitleRenderContext) : ℕ :=
  natClamp (effective_max_words_per_line profile context * effective_max_lines profile context) 3 24

def effective_chunk_char_limit (profile : SubtitleRenderProfile)
    (context : ClipSubtitleRenderContext) : ℕ :=
  natClamp (effective_max_chars_per_line profile context * effective_max_lines profile context) 18 140

structure ChunkState where
  chunks : List (List ClipSubtitleWord)
  current : List ClipSubtitleWord
  chars : ℕ
deriving DecidableEq, Repr

/-- The `chunk_has_overflow` disjunct of the chunking loop. -/
def chunk_has_overflow (current : List ClipSubtitleWord) (chars additional : ℕ)
    (chunk_word_limit chunk_char_limit : ℕ) (word : ClipSubtitleWord) : Bool :=
  let chunk_start := ((current.head?).map ClipSubtitleWord.start).getD word.start
  let predicted_duration := word.«end» - chunk_start
  decide (chunk_word_limit ≤ current.length) ||
    decide (chunk_char_limit < chars + additional) ||
    decide ((22/5 : ℚ) < predicted_duration)

/-- The `has_large_gap` disjunct of the chunking loop. -/
def has_large_gap (current : List ClipSubtitleWord) (word : ClipSubtitleWord) : Bool :=
  match current.getLast? with
  | none => false
  | some previous => decide ((31/50 : ℚ) < word.start - previous.«end»)

/-- The `ended_sentence` disjunct of the chunking loop: previous word ends a
sentence and the chunk holds at least `(chunk_word_limit / 2).max(2)` words. -/
def ended_sentence_flush (current : List ClipSubtitleWord) (chunk_word_limit : ℕ) : Bool :=
  match current.getLast? with
  | none => false
  | some previous =>
      is_sentence_boundary_token previous.text &&
        decide (max (chunk_word_limit / 2) 2 ≤ current.length)

/-- Modelled from the spec: the flush threshold exactly as the claim words it
(half of `max_words_per_line`, minimum 2). -/
def specSentenceFlushThreshold (max_words_per_line : ℕ) : ℕ :=
  max (max_words_per_line / 2) 2

/-- One iteration of the chunking loop of `build_clip_subtitle_ass_content`. -/
def chunk_step (chunk_word_limit chunk_char_limit : ℕ) (st : ChunkState)
    (word : ClipSubtitleWord) : ChunkState :=
  let additional := if st.current.isEmpty then charsCount word.text else charsCount word.text + 1
  let flush := !st.current.isEmpty &&
    (chunk_has_overflow st.current st.chars additional chunk_word_limit chunk_char_limit word ||
      has_large_gap st.current word ||
      ended_sentence_flush st.current chunk_word_limit)
  if flush then
    { chunks := st.chunks ++ [st.current], current := [word], chars := charsCount word.text }
  else
    { chunks := st.chunks, current := st.current ++ [word], chars := st.chars + additional }

/-- The chunking loop (with the final `push_chunk`). -/
def build_subtitle_chunks (words : List ClipSubtitleWord)
    (chunk_word_limit chunk_char_limit : ℕ) : List (List ClipSubtitleWord) :=
  let st := words.foldl (chunk_step chunk_word_limit chunk_char_limit) ⟨[], [], 0⟩
  if st.current.isEmpty then st.chunks else st.chunks ++ [st.current]

structure LineState where
  lines : List (List ClipSubtitleWord)
  current_line : List ClipSubtitleWord
  chars : ℕ
deriving DecidableEq, Repr

/-- One iteration of the greedy line packer in `split_chunk_into_lines`. -/
def line_step (max_words_per_line max_chars_per_line : ℕ) (st : LineState)
    (word : ClipSubtitleWord) : LineState :=
  let additional := if st.current_line.isEmpty then charsCount word.text
    else charsCount word.text + 1
  let exceeds_word_count := decide (max_words_per_line ≤ st.current_line.length)
  let exceeds_char_count := decide (max_chars_per_line < st.chars + additional)
  if !st.current_line.isEmpty && (exceeds_word_count || exceeds_char_count) then
    { lines := st.lines ++ [st.current_line], current_line := [word],
      chars := charsCount word.text }
  else
    { lines := st.lines, current_line := st.current_line ++ [word],
      chars := st.chars + additional }

/-- `split_chunk_into_lines` from `export_pipeline.rs`. -/
def split_chunk_into_lines (chunk : List ClipSubtitleWord)
    (max_words_per_line max_chars_per_line max_lines : ℕ) : List (List ClipSubtitleWord) :=
  if chunk.isEmpty then []
  else
    let st := chunk.foldl (line_step max_words_per_line max_chars_per_line) ⟨[], [], 0⟩
    let lines := if st.current_line.isEmpty then st.lines else st.lines ++ [st.current_line]
    if lines.length ≤ max_lines then lines
    else
      let compacted := lines.take max_lines
      let used := (compacted.map List.length).sum
      let overflow := chunk.drop used
      match compacted.getLast? with
      | none => compacted
      | some last_line => compacted.dropLast ++ [last_line ++ overflow]

/-- The relative start/end times of the `Dialogue` event one chunk produces
(`none` when the chunk is dropped), from the per-chunk body of
`build_clip_subtitle_ass_content`; the two times are the arguments of the
`ass_timestamp` calls of the emitted event. -/
def event_time_of_chunk (context : ClipSubtitleRenderContext)
    (max_words_per_line max_chars_per_line max_lines : ℕ)
    (chunk : List ClipSubtitleWord) : Option (ℚ × ℚ) :=
  let lines := split_chunk_into_lines chunk max_words_per_line max_chars_per_line max_lines
  if lines.isEmpty then none
  else
    let start := ((lines.head?.bind List.head?).map ClipSubtitleWord.start).getD
      context.clip_start
    let stop := ((lines.getLast?.bind List.getLast?).map ClipSubtitleWord.«end»).getD
      (start + 1/5)
    let clip_duration := max (context.clip_end - context.clip_start) (1/10)
    let relative_start := qClamp (start - context.clip_start) 0 clip_duration
    let relative_end := qClamp (stop - context.clip_start + 12/100) 0 clip_duration
    if relative_end ≤ relative_start + 8/100 then none
    else some (relative_start, relative_end)

/-- The word filter and sort of `build_clip_subtitle_ass_content` (word
times are finite rationals here, so the `is_finite` guards of the source
are vacuous; the stable `sort_by` on `start` is modelled by the stable
insertion sort). -/
def clip_subtitle_words (subtitles : ClipBatchSubtitlePayload)
    (context : ClipSubtitleRenderContext) : List ClipSubtitleWord :=
  let filtered := subtitles.words.filterMap (fun word =>
    let start := max word.start context.clip_start
    let stop := min word.«end» context.clip_end
    if stop ≤ start + 1/40 then none
    else
      let normalized := normalize_subtitle_word_text word.text subtitles.render_profile.all_caps
      if normalized.isEmpty then none
      else some { emphasis := subtitles.render_profile.highlight_important_words &&
                    is_emphasis_candidate normalized,
                  text := normalized, start := start, «end» := stop })
  filtered.insertionSort (fun left right => left.start ≤ right.start)

/-- The chunk list of `build_clip_subtitle_ass_content` (empty when the
function returns `None` before chunking). -/
def clip_subtitle_chunks (subtitles : ClipBatchSubtitlePayload)
    (context : ClipSubtitleRenderContext) : List (List ClipSubtitleWord) :=
  if ¬ subtitles.enabled ∨ subtitles.words.isEmpty ∨ context.clip_end ≤ context.clip_start then []
  else
    let words := clip_subtitle_words subtitles context
    if words.isEmpty then []
    else
      build_subtitle_chunks words
        (effective_chunk_word_limit subtitles.render_profile context)
        (effective_chunk_char_limit subtitles.render_profile context)

/-- The relative `(start, end)` times of all `Dialogue` events of the ASS
content produced by `build_clip_subtitle_ass_content`. -/
def clip_subtitle_events (subtitles : ClipBatchSubtitlePayload)
    (context : ClipSubtitleRenderContext) : List (ℚ × ℚ) :=
  (clip_subtitle_chunks subtitles context).filterMap
    (event_time_of_chunk context
      (effective_max_words_per_line subtitles.render_profile context)
      (effective_max_chars_per_line subtitles.render_profile context)
      (effective_max_lines subtitles.render_profile context))

/-! ## install_and_youtube.rs: managed ffmpeg candidate loop -/

/-- The outcome of the external effects of one candidate-URL attempt in
`install_managed_ffmpeg_sync`: fetching the expected checksum can fail,
the download can fail (having created the partial archive file or not),
the checksum verification can fail, or everything succeeds. -/
inductive FfmpegAttemptOutcome where
  | shaFetchErr (message : String)
  | downloadErr (fileCreated : Bool) (message : String)
  | checksumErr (message : String)
  | ok
deriving DecidableEq, Repr

def FfmpegAttemptOutcome.message : FfmpegAttemptOutcome → Option String
  | .shaFetchErr m => some m
  | .downloadErr _ m => some m
  | .checksumErr m => some m
  | .ok => none

structure FfmpegInstallState where
  last_error : Option String
  package_file_present : Bool
  downloaded : Bool
deriving DecidableEq, Repr

/-- One iteration of the candidate loop of `install_managed_ffmpeg_sync`:
on a checksum-fetch error the error is recorded and the next URL is tried;
on a download error the error is recorded (the partial archive file, if
created, stays on disk); on a checksum-verification error the error is
recorded and the archive file is removed; on success the loop breaks. -/
def ffmpeg_install_step (st : FfmpegInstallState) (outcome : FfmpegAttemptOutcome) :
    FfmpegInstallState :=
  if st.downloaded then st
  else
    match outcome with
    | .shaFetchErr m => { st with last_error := some m }
    | .downloadErr created m =>
        { st with
          last_error := some m
          package_file_present := st.package_file_present || created }
    | .checksumErr m =>
        { last_error := some m, package_file_present := false, downloaded := false }
    | .ok => { st with package_file_present := true, downloaded := true }

/-- The candidate loop folded over the per-URL outcomes. -/
def install_managed_ffmpeg_candidates (outcomes : List FfmpegAttemptOutcome) :
    FfmpegInstallState :=
  outcomes.foldl ffmpeg_install_step ⟨none, false, false⟩

/-- The `if !downloaded` exit of `install_managed_ffmpeg_sync`. -/
def install_managed_ffmpeg_result (outcomes : List FfmpegAttemptOutcome) :
    Except String Unit :=
  let st := install_managed_ffmpeg_candidates outcomes
  if st.downloaded then .ok ()
  else .error (st.last_error.getD "Failed to download FFmpeg.")

/-! ## Concrete data used by the counterexample evaluations -/

/-- A plain render profile: 6 words per line, 40 chars per line, 1 line. -/
def sampleRenderProfile : SubtitleRenderProfile :=
  { animation := "line", position := "bottom", font_family := "Montserrat",
    font_size := 48, line_height := 1, max_words_per_line := 6,
    max_chars_per_line := 40, max_lines := 1, safe_margin_x := 60,
    safe_margin_y := 120, primary_color := "#FFFFFF", secondary_color := "#7EA6FF",
    outline_color := "#0A0D16", shadow_color := "#000000", outline_width := 2,
    shadow_depth := 0, bold := false, italic := false, all_caps := false,
    letter_spacing := 0, fade_in_ms := 0, fade_out_ms := 0,
    highlight_important_words := false }

def sampleContext : ClipSubtitleRenderContext :=
  { clip_start := 0, clip_end := 10, target_w := 1080, target_h := 1920,
    subtitle_offset_x := 0, subtitle_offset_y := 0,
    subtitle_box_width := 1, subtitle_box_height := 1 }

def sampleWord (id text : String) (start stop : ℚ) : ExportTranscriptWord :=
  { id := id, text := text, start := start, «end» := stop }

/-- Five words whose fourth ends a sentence, with `max_lines = 2`, so the
chunk word limit is `clamp(6 * 2, 3, 24) = 12` and the sentence flush
threshold of the code is `max(12 / 2, 2) = 6`. -/
def chunkLimitPayload : ClipBatchSubtitlePayload :=
  { enabled := true, preset_id := "p", preset_name := none,
    render_profile := { sampleRenderProfile with max_lines := 2 },
    words := [sampleWord "w1" "aa" 0 (1/10), sampleWord "w2" "bb" (12/100) (22/100),
              sampleWord "w3" "cc" (24/100) (34/100), sampleWord "w4" "dd." (36/100) (46/100),
              sampleWord "w5" "ee" (48/100) (58/100)] }

/-- Three words whose second ends a sentence (2-word fragment), with
`max_lines = 1` so the chunk word limit is 6 and the threshold is 3. -/
def twoWordFragmentPayload : ClipBatchSubtitlePayload :=
  { enabled := true, preset_id := "p", preset_name := none,
    render_profile := sampleRenderProfile,
    words := [sampleWord "w1" "aa" 0 (1/10), sampleWord "w2" "bb." (12/100) (22/100),
              sampleWord "w3" "cc" (24/100) (34/100)] }

/-- Five words whose fourth ends a sentence (4-word fragment), with
`max_lines = 1` so the chunk word limit is 6 and the threshold is 3. -/
def fourWordFragmentPayload : ClipBatchSubtitlePayload :=
  { enabled := true, preset_id := "p", preset_name := none,
    render_profile := sampleRenderProfile,
    words := [sampleWord "w1" "aa" 0 (1/10), sampleWord "w2" "bb" (12/100) (22/100),
              sampleWord "w3" "cc" (24/100) (34/100), sampleWord "w4" "dd." (36/100) (46/100),
              sampleWord "w5" "ee" (48/100) (58/100)] }

/-- A single word spanning a very short clip window of 0.05 s. -/
def shortClipPayload : ClipBatchSubtitlePayload :=
  { enabled := true, preset_id := "p", preset_name := none,
    render_profile := sampleRenderProfile,
    words := [sampleWord "w1" "hi" 0 (1/20)] }

def shortClipContext : ClipSubtitleRenderContext :=
  { sampleContext with clip_end := 1/20 }

/-! ## General lemmas -/

theorem qClamp_lower (v lo hi : ℚ) (h : lo ≤ hi) : lo ≤ qClamp v lo hi :=
  le_min (le_max_right v lo) h

theorem qClamp_upper (v lo hi : ℚ) : qClamp v lo hi ≤ hi :=
  min_le_right _ _

/-! ## Claim C9: aspect parse failures fall back to the 16:9 default -/

/-- C9 counterexample: the aspect string `"nan"` does not parse as a positive
float (NaN is not positive), yet `parse_aspect_ratio` accepts it and
`pick_render_resolution` returns `1080×1080`, not the claimed 16:9 default
`(1920, 1080)`. -/
theorem parse_aspect_ratio_nan_counterexample :
    parse_aspect_ratio "nan" = some F64.nan ∧
    F64.lt (F64.fin 0) F64.nan = false ∧
    pick_render_resolution "nan" = (1080, 1080) := by
  refine ⟨rfl, rfl, by decide⟩

/-- C9 (amended): for every aspect string on which `parse_aspect_ratio`
returns no value, `pick_render_resolution` falls back to the 16:9 default
`(1920, 1080)`; empty, malformed, and zero/negative-component strings do
return no value (strings parsing as NaN instead return `Some NaN`). -/
theorem pick_render_resolution_fallback :
    (∀ aspect, parse_aspect_ratio aspect = none →
      pick_render_resolution aspect = (1920, 1080)) ∧
    parse_aspect_ratio "" = none ∧ parse_aspect_ratio "abc" = none ∧
    parse_aspect_ratio "0:3" = none ∧ parse_aspect_ratio "-1.5" = none ∧
    parse_aspect_ratio "4:-2" = none := by
  refine ⟨?_, by decide, by decide, by decide, by decide, by decide⟩
  intro aspect h
  simp only [pick_render_resolution, h]
  decide

/-- C9 witness: the fallback theorem applied to the malformed aspect `"abc"`. -/
theorem pick_render_resolution_fallback_witness :
    pick_render_resolution "abc" = (1920, 1080) :=
  pick_render_resolution_fallback.1 "abc" (by decide)

/-! ## Claim C10: clamp_export_time totality and the range check -/

/-- C10 counterexample: a non-finite start is clamped to `0.0`, so a task
with `start = NaN` and `end = 5.0` is NOT rejected by the
`end <= start + 0.1` range check (`clipRangeInvalid` is `false`). -/
theorem clip_range_nonfinite_start_counterexample :
    clamp_export_time F64.nan = F64.fin 0 ∧
    clipRangeInvalid F64.nan (F64.fin 5) = false := by
  refine ⟨rfl, by decide⟩

/-- C10 (amended): `clamp_export_time` is total — every non-finite input maps
to `0.0` and every finite input is clamped into `[0, 36000]`; consequently a
clip task whose end is non-finite is always rejected by the
`end > start + 0.1` range check (a non-finite start alone is clamped to 0 and
does not by itself force rejection). -/
theorem clamp_export_time_spec :
    (∀ v : F64, v.isFinite = false → clamp_export_time v = F64.fin 0) ∧
    (∀ q : ℚ, clamp_export_time (F64.fin q) = F64.fin (qClamp q 0 36000) ∧
      0 ≤ qClamp q 0 36000 ∧ qClamp q 0 36000 ≤ 36000) ∧
    (∀ start «end» : F64, F64.isFinite «end» = false →
      clipRangeInvalid start «end» = true) := by
  have hfin : ∀ q : ℚ, clamp_export_time (F64.fin q) = F64.fin (qClamp q 0 36000) := by
    intro q
    show F64.fin (qClamp q 0 (60 * 60 * 10)) = F64.fin (qClamp q 0 36000)
    norm_num
  have hnonfin : ∀ v : F64, v.isFinite = false → clamp_export_time v = F64.fin 0 := by
    intro v h
    cases v <;> simp_all [clamp_export_time, F64.isFinite]
  refine ⟨hnonfin, ?_, ?_⟩
  · intro q
    exact ⟨hfin q, qClamp_lower q 0 36000 (by norm_num), qClamp_upper q 0 36000⟩
  · intro start «end» he
    unfold clipRangeInvalid
    rw [hnonfin «end» he]
    have hstart : ∃ c : ℚ, clamp_export_time start = F64.fin c ∧ 0 ≤ c := by
      cases hl : start.isFinite with
      | false => exact ⟨0, hnonfin start hl, le_refl 0⟩
      | true =>
          cases start with
          | fin q => exact ⟨qClamp q 0 36000, hfin q, qClamp_lower q 0 36000 (by norm_num)⟩
          | nan => simp [F64.isFinite] at hl
          | posInf => simp [F64.isFinite] at hl
          | negInf => simp [F64.isFinite] at hl
    obtain ⟨c, hc, hc0⟩ := hstart
    rw [hc]
    show F64.le (F64.fin 0) (F64.fin (c + 1/10)) = true
    simp only [F64.le, decide_eq_true_iff]
    linarith

/-- C10 witness: the totality theorem applied at `+∞` and at a task whose end
is `+∞`. -/
theorem clamp_export_time_spec_witness :
    clamp_export_time F64.posInf = F64.fin 0 ∧
    clipRangeInvalid (F64.fin 3) F64.posInf = true :=
  ⟨clamp_export_time_spec.1 F64.posInf rfl,
   clamp_export_time_spec.2.2 (F64.fin 3) F64.posInf rfl⟩

/-! ## Claim C1: trusted download URL validation -/

/-- C1 counterexample: the host `foo.github.com` is not one of the four
allow-list hosts, yet `ensure_trusted_https_url` accepts it (the source
matches subdomains with `trusted_host_match`). -/
theorem trusted_url_subdomain_counterexample :
    ensure_trusted_https_url
        { scheme := "https", username := "", password := none,
          host := some "foo.github.com", port := none } =
      .ok { scheme := "https", username := "", password := none,
            host := some "foo.github.com", port := none } ∧
    "foo.github.com" ∉ TRUSTED_DOWNLOAD_HOSTS ∧
    trusted_host_match "foo.github.com" "github.com" = true := by
  refine ⟨rfl, by decide, by decide⟩

/-- C1 (amended): a parsed URL is accepted by `ensure_trusted_https_url`
exactly when its scheme is `https`, it carries no username, password, or
explicit port, and its host matches one of the four allow-list hosts under
`trusted_host_match` (equal up to ASCII case, or an ASCII-lowercased
subdomain suffix `.<allowed>`); every other URL is rejected with an error. -/
theorem ensure_trusted_https_url_accepts_iff (parsed : ParsedUrl) :
    (∃ v, ensure_trusted_https_url parsed = .ok v) ↔
      (parsed.scheme = "https" ∧ parsed.username = "" ∧ parsed.password = none ∧
        parsed.port = none ∧
        ∃ host, parsed.host = some host ∧
          ∃ allowed ∈ TRUSTED_DOWNLOAD_HOSTS, trusted_host_match host allowed = true) := by
  constructor
  · rintro ⟨v, hv⟩
    unfold ensure_trusted_https_url at hv
    split at hv
    · exact absurd hv (by simp)
    · split at hv
      · exact absurd hv (by simp)
      · split at hv
        · exact absurd hv (by simp)
        · next hscheme hcred hport =>
            push_neg at hscheme hcred hport
            rcases hcred with ⟨huser, hpass⟩
            split at hv
            · exact absurd hv (by simp)
            · next host hhost =>
                split at hv
                · next hany =>
                    obtain ⟨allowed, hmem, hmatch⟩ := List.any_eq_true.mp hany
                    exact ⟨hscheme, huser,
                      Option.not_isSome_iff_eq_none.mp (by simpa using hpass),
                      Option.not_isSome_iff_eq_none.mp (by simpa using hport),
                      host, hhost, allowed, hmem, hmatch⟩
                · exact absurd hv (by simp)
  · rintro ⟨hscheme, huser, hpass, hport, host, hhost, allowed, hmem, hmatch⟩
    refine ⟨parsed, ?_⟩
    unfold ensure_trusted_https_url
    have hany : TRUSTED_DOWNLOAD_HOSTS.any (fun a => trusted_host_match host a) = true :=
      List.any_eq_true.mpr ⟨allowed, hmem, hmatch⟩
    simp [hscheme, huser, hpass, hport, hhost, hany]

/-- C1 witness: the characterization applied to the primary download host. -/
theorem ensure_trusted_https_url_accepts_iff_witness :
    ∃ v, ensure_trusted_https_url
      { scheme := "https", username := "", password := none,
        host := some "github.com", port := none } = .ok v :=
  (ensure_trusted_https_url_accepts_iff _).mpr
    ⟨rfl, rfl, rfl, rfl, "github.com", rfl, "github.com", by decide, by decide⟩

/-! ## Claims C2 and C3: yt-dlp progress emission -/

theorem parse_progress_ratio_from_parts_bounds
    (downloaded total total_estimate : Option ℕ) (r : ℚ)
    (h : parse_progress_ratio_from_parts downloaded total total_estimate = some r) :
    0 ≤ r ∧ r ≤ 1 := by
  rcases downloaded with _ | d
  · simp [parse_progress_ratio_from_parts] at h
  · rcases hba : total.or total_estimate with _ | baseline
    · simp [parse_progress_ratio_from_parts, hba] at h
    · by_cases hb : baseline = 0
      · simp [parse_progress_ratio_from_parts, hba, hb] at h
      · have h' : some (qClamp ((d : ℚ) / (baseline : ℚ)) 0 1) = some r := by
          rw [← h]
          simp [parse_progress_ratio_from_parts, hba, hb]
        obtain rfl := (Option.some.injEq _ _).mp h'
        exact ⟨qClamp_lower _ 0 1 (by norm_num), qClamp_upper _ 0 1⟩

theorem ytdlp_raw_ratio_nonneg (input : YtdlpProgressInput) :
    0 ≤ ytdlp_raw_ratio input := by
  unfold ytdlp_raw_ratio
  rcases hpr : (parse_progress_ratio_from_parts input.downloaded input.total
      input.total_estimate).or (input.percent_hint.map
        (fun value => qClamp (value / 100) 0 1)) with _ | r
  · simp
  · simp only [Option.getD_some]
    rcases Option.or_eq_some.mp hpr with hp | ⟨_, hh⟩
    · exact (parse_progress_ratio_from_parts_bounds _ _ _ r hp).1
    · obtain ⟨v, _, rfl⟩ := Option.map_eq_some'.mp hh
      exact qClamp_lower _ 0 1 (by norm_num)

theorem ytdlp_adjusted_ratio_spec (input : YtdlpProgressInput) (last_ratio : ℚ) :
    0 ≤ ytdlp_adjusted_ratio input last_ratio ∧
      (0 ≤ last_ratio → last_ratio ≤ ytdlp_adjusted_ratio input last_ratio) := by
  unfold ytdlp_adjusted_ratio
  split_ifs with h0
  · exact ⟨le_trans (ytdlp_raw_ratio_nonneg input) (le_max_left _ _),
      fun _ => le_max_right _ _⟩
  · exact ⟨ytdlp_raw_ratio_nonneg input, fun hc => absurd hc h0⟩

/-- C2 counterexample: a line carrying ratio 0.995 (995 of 1000 bytes) with
previous ratio 0.99 and 300 ms elapsed.  The claim's condition (ratio change
≥ 0.01 and 240 ms elapsed, OR ratio ≥ 0.995) holds, yet the code emits no
event: its `should_emit` requires the ≥ 0.01 change in every case. -/
theorem ytdlp_emit_ratio_995_counterexample :
    specClaimedEmit ⟨some 995, some 1000, none, none, 300⟩ (99/100) = true ∧
    ytdlp_should_emit ⟨some 995, some 1000, none, none, 300⟩ (99/100) = false ∧
    (maybe_emit_ytdlp_progress ⟨some 995, some 1000, none, none, 300⟩ (99/100)).1 = none := by
  refine ⟨by decide, by decide, by decide⟩

/-- C2 (amended): a progress event is emitted exactly when the
monotonically-adjusted ratio (downloaded over total-or-estimate, falling
back to the percent hint and then 0, clamped to `[0,1]`, then raised to at
least the previous ratio when that is ≥ 0) differs from the previous ratio
by at least 0.01 AND (more than 240 ms elapsed since the previous emission
or the adjusted ratio is at least 0.995); the emitted event carries that
adjusted ratio. -/
theorem maybe_emit_ytdlp_progress_characterization
    (input : YtdlpProgressInput) (last_ratio : ℚ) :
    ((maybe_emit_ytdlp_progress input last_ratio).1.isSome = true ↔
      ((1/100 : ℚ) ≤ |ytdlp_adjusted_ratio input last_ratio - last_ratio| ∧
        (240 < input.elapsed_ms ∨
          (995/1000 : ℚ) ≤ ytdlp_adjusted_ratio input last_ratio))) ∧
    ((maybe_emit_ytdlp_progress input last_ratio).1.isSome = true →
      (maybe_emit_ytdlp_progress input last_ratio).1 =
        some (ytdlp_adjusted_ratio input last_ratio)) := by
  have hcond : ytdlp_should_emit input last_ratio = true ↔
      ((1/100 : ℚ) ≤ |ytdlp_adjusted_ratio input last_ratio - last_ratio| ∧
        (240 < input.elapsed_ms ∨
          (995/1000 : ℚ) ≤ ytdlp_adjusted_ratio input last_ratio)) := by
    simp [ytdlp_should_emit]
  constructor
  · rw [← hcond]
    unfold maybe_emit_ytdlp_progress
    by_cases hemit : ytdlp_should_emit input last_ratio <;> simp [hemit]
  · intro hsome
    unfold maybe_emit_ytdlp_progress at hsome ⊢
    by_cases hemit : ytdlp_should_emit input last_ratio <;> simp_all

/-- C2 witness: the characterization applied to a fresh 50%-progress line
with previous ratio 0 and 300 ms elapsed (which does emit). -/
theorem maybe_emit_ytdlp_progress_characterization_witness :
    (maybe_emit_ytdlp_progress ⟨some 50, some 100, none, none, 300⟩ 0).1.isSome = true :=
  (maybe_emit_ytdlp_progress_characterization ⟨some 50, some 100, none, none, 300⟩ 0).1.mpr
    (by constructor <;> decide)

theorem maybe_emit_ytdlp_progress_pos (input : YtdlpProgressInput) (last_ratio : ℚ)
    (h : ytdlp_should_emit input last_ratio = true) :
    maybe_emit_ytdlp_progress input last_ratio =
      (some (ytdlp_adjusted_ratio input last_ratio), ytdlp_adjusted_ratio input last_ratio) := by
  simp [maybe_emit_ytdlp_progress, h]

theorem maybe_emit_ytdlp_progress_neg (input : YtdlpProgressInput) (last_ratio : ℚ)
    (h : ytdlp_should_emit input last_ratio = false) :
    maybe_emit_ytdlp_progress input last_ratio = (none, last_ratio) := by
  simp [maybe_emit_ytdlp_progress, h]

theorem ytdlp_progress_events_cons (input : YtdlpProgressInput)
    (rest : List YtdlpProgressInput) (last_ratio : ℚ) :
    ytdlp_progress_events (input :: rest) last_ratio =
      match maybe_emit_ytdlp_progress input last_ratio with
      | (some ratio, new_last) => ratio :: ytdlp_progress_events rest new_last
      | (none, new_last) => ytdlp_progress_events rest new_last := rfl

theorem ytdlp_progress_events_aux (inputs : List YtdlpProgressInput) :
    ∀ last_ratio : ℚ,
      List.Chain' (· ≤ ·) (ytdlp_progress_events inputs last_ratio) ∧
      ∀ r ∈ ytdlp_progress_events inputs last_ratio,
        0 ≤ r ∧ (0 ≤ last_ratio → last_ratio ≤ r) := by
  induction inputs with
  | nil =>
      intro last
      exact ⟨List.chain'_nil, by intro r hr; exact absurd hr (List.not_mem_nil r)⟩
  | cons input rest ih =>
      intro last
      have hadj := ytdlp_adjusted_ratio_spec input last
      rw [ytdlp_progress_events_cons]
      by_cases hemit : ytdlp_should_emit input last
      · rw [maybe_emit_ytdlp_progress_pos input last hemit]
        constructor
        · refine List.chain'_cons'.mpr ⟨?_, (ih _).1⟩
          intro b hb
          exact ((ih _).2 b (List.mem_of_mem_head? hb)).2 hadj.1
        · intro r hr
          rcases List.mem_cons.mp hr with rfl | hr'
          · exact ⟨hadj.1, hadj.2⟩
          · have hrr := (ih (ytdlp_adjusted_ratio input last)).2 r hr'
            exact ⟨hrr.1, fun hlast => le_trans (hadj.2 hlast) (hrr.2 hadj.1)⟩
      · rw [maybe_emit_ytdlp_progress_neg input last (by simpa using hemit)]
        exact ih last

/-- C3: for every sequence of progress lines processed through one
`maybe_emit_ytdlp_progress` state whose last-ratio slot starts below zero
(the source initialises it to `-1.0`), the ratios carried by the
successively emitted progress events are monotonically non-decreasing. -/
theorem ytdlp_progress_events_monotone (inputs : List YtdlpProgressInput)
    (init : ℚ) (_hinit : init < 0) :
    List.Chain' (· ≤ ·) (ytdlp_progress_events inputs init) :=
  (ytdlp_progress_events_aux inputs init).1

/-- C3 witness: monotonicity of the event stream of two concrete lines from
the initial `-1` slot. -/
theorem ytdlp_progress_events_monotone_witness :
    List.Chain' (· ≤ ·) (ytdlp_progress_events
      [⟨some 20, some 100, none, none, 300⟩, ⟨some 90, some 100, none, none, 300⟩] (-1)) :=
  ytdlp_progress_events_monotone _ (-1) (by norm_num)

/-! ## Claim C8: managed ffmpeg candidate loop error handling -/

theorem ffmpeg_install_fold_last_error (outcomes : List FfmpegAttemptOutcome) :
    ∀ st : FfmpegInstallState, st.downloaded = false →
      (∀ o ∈ outcomes, o ≠ .ok) → outcomes ≠ [] →
      ∃ o m, outcomes.getLast? = some o ∧ o.message = some m ∧
        (outcomes.foldl ffmpeg_install_step st).last_error = some m ∧
        (outcomes.foldl ffmpeg_install_step st).downloaded = false := by
  induction outcomes with
  | nil => intro st _ _ hne; exact absurd rfl hne
  | cons o rest ih =>
      intro st hdl hfail _
      have ho : o ≠ .ok := hfail o (by simp)
      have hstep : (ffmpeg_install_step st o).downloaded = false ∧
          ∃ m, o.message = some m ∧ (ffmpeg_install_step st o).last_error = some m := by
        cases o with
        | shaFetchErr m => simp [ffmpeg_install_step, hdl, FfmpegAttemptOutcome.message]
        | downloadErr created m =>
            simp [ffmpeg_install_step, hdl, FfmpegAttemptOutcome.message]
        | checksumErr m => simp [ffmpeg_install_step, hdl, FfmpegAttemptOutcome.message]
        | ok => exact absurd rfl ho
      obtain ⟨hdl', m, hm, hlast⟩ := hstep
      cases rest with
      | nil =>
          exact ⟨o, m, rfl, hm, by simpa using hlast, by simpa using hdl'⟩
      | cons r t =>
          have hfail' : ∀ x ∈ r :: t, x ≠ FfmpegAttemptOutcome.ok := by
            intro x hx; exact hfail x (List.mem_cons_of_mem o hx)
          obtain ⟨o', m', hlast', hm', hfold, hfolddl⟩ :=
            ih (ffmpeg_install_step st o) hdl' hfail' (by simp)
          exact ⟨o', m', by simpa using hlast', hm', by simpa using hfold,
            by simpa using hfolddl⟩

/-- C8 counterexample: both candidate downloads fail after creating the
partial archive file.  The last error is returned, but the partial archive
is NOT deleted (the source removes it only on checksum-verification
failure), contradicting the claim that it is deleted on any failure. -/
theorem ffmpeg_install_partial_archive_counterexample :
    install_managed_ffmpeg_result
        [.downloadErr true "primary failed", .downloadErr true "fallback failed"] =
      .error "fallback failed" ∧
    (install_managed_ffmpeg_candidates
        [.downloadErr true "primary failed",
         .downloadErr true "fallback failed"]).package_file_present = true := by
  refine ⟨rfl, by decide⟩

/-- C8 (amended): whenever an attempt on a candidate archive URL fails, the
error is recorded and the next candidate is tried, and when all candidates
are exhausted the operation returns the last recorded error; the partial
archive file is deleted on a checksum-verification failure, but on a
download failure it is left on disk (and on a checksum-fetch failure no
download has happened). -/
theorem ffmpeg_install_error_spec :
    (∀ outcomes : List FfmpegAttemptOutcome,
      (∀ o ∈ outcomes, o ≠ .ok) → outcomes ≠ [] →
      ∃ o m, outcomes.getLast? = some o ∧ o.message = some m ∧
        install_managed_ffmpeg_result outcomes = .error m) ∧
    (∀ (st : FfmpegInstallState) (m : String), st.downloaded = false →
      ffmpeg_install_step st (.checksumErr m) =
        { last_error := some m, package_file_present := false, downloaded := false }) ∧
    (∀ (st : FfmpegInstallState) (m : String) (created : Bool), st.downloaded = false →
      ffmpeg_install_step st (.downloadErr created m) =
        { st with last_error := some m,
                  package_file_present := st.package_file_present || created }) ∧
    (∀ (st : FfmpegInstallState) (m : String), st.downloaded = false →
      ffmpeg_install_step st (.shaFetchErr m) = { st with last_error := some m }) := by
  refine ⟨?_, ?_, ?_, ?_⟩
  · intro outcomes hfail hne
    obtain ⟨o, m, hlast, hm, hfold, hdl⟩ :=
      ffmpeg_install_fold_last_error outcomes ⟨none, false, false⟩ rfl hfail hne
    refine ⟨o, m, hlast, hm, ?_⟩
    simp only [install_managed_ffmpeg_result, install_managed_ffmpeg_candidates]
    rw [hdl, hfold]
    rfl
  · intro st m h; simp [ffmpeg_install_step, h]
  · intro st m created h; simp [ffmpeg_install_step, h]
  · intro st m h; simp [ffmpeg_install_step, h]

/-- C8 witness: the exhaustion theorem applied to a checksum failure followed
by a download failure. -/
theorem ffmpeg_install_error_spec_witness :
    ∃ o m, List.getLast? [FfmpegAttemptOutcome.checksumErr "bad checksum",
        FfmpegAttemptOutcome.downloadErr false "network down"] = some o ∧
      o.message = some m ∧
      install_managed_ffmpeg_result
        [.checksumErr "bad checksum", .downloadErr false "network down"] = .error m :=
  ffmpeg_install_error_spec.1 _ (by decide) (by decide)

/-! ## Claim C7: render resolution selection -/

theorem normalize_target_dimension_in_range (value : ℕ)
    (h1 : 240 ≤ value) (h2 : value ≤ 4320) :
    normalize_target_dimension value =
      some (if value % 2 = 0 then value else value - 1) := by
  simp only [normalize_target_dimension]
  rw [if_neg (not_not_intro ⟨h1, h2⟩),
    if_neg (by by_cases hv : value % 2 = 0 <;> simp only [hv, if_true, if_false] <;> omega)]

theorem normalize_target_dimension_none_iff (value : ℕ) :
    normalize_target_dimension value = none ↔ ¬(240 ≤ value ∧ value ≤ 4320) := by
  constructor
  · intro h hrange
    rw [normalize_target_dimension_in_range value hrange.1 hrange.2] at h
    simp at h
  · intro hc
    simp only [normalize_target_dimension]
    rw [if_pos hc]

theorem normalize_target_dimension_even (value n : ℕ)
    (h : normalize_target_dimension value = some n) : Even n := by
  by_cases hr : 240 ≤ value ∧ value ≤ 4320
  · rw [normalize_target_dimension_in_range value hr.1 hr.2] at h
    obtain rfl := (Option.some.injEq _ _).mp h
    by_cases hv : value % 2 = 0
    · rw [if_pos hv]
      exact Nat.even_iff.mpr hv
    · rw [if_neg hv]
      exact Nat.even_iff.mpr (by omega)
  · rw [(normalize_target_dimension_none_iff value).mpr hr] at h
    simp at h

theorem normalize_target_dimension_from_f64_even (v : F64) (n : ℕ)
    (h : normalize_target_dimension_from_f64 v = some n) : Even n := by
  simp only [normalize_target_dimension_from_f64] at h
  split_ifs at h
  all_goals first
    | exact absurd h (by simp)
    | exact normalize_target_dimension_even _ n h

theorem pick_render_resolution_even (aspect : String) :
    Even (pick_render_resolution aspect).1 ∧ Even (pick_render_resolution aspect).2 := by
  simp only [pick_render_resolution]
  split_ifs <;> exact ⟨by decide, by decide⟩

theorem align_resolution_to_aspect_even (aspect : String) (width height : ℕ)
    (hw : Even width) (hh : Even height) :
    Even (align_resolution_to_aspect aspect width height).1 ∧
      Even (align_resolution_to_aspect aspect width height).2 := by
  simp only [align_resolution_to_aspect]
  split_ifs
  · exact ⟨hw, hh⟩
  · exact ⟨hw, hh⟩
  · split
    · next l r hl hr =>
        obtain ⟨chl, hchl, rfl⟩ := Option.map_eq_some'.mp hl
        obtain ⟨cwr, hcwr, rfl⟩ := Option.map_eq_some'.mp hr
        split_ifs
        · exact ⟨hw, normalize_target_dimension_from_f64_even _ _ hchl⟩
        · exact ⟨normalize_target_dimension_from_f64_even _ _ hcwr, hh⟩
    · next c hc _ =>
        obtain ⟨ch, hch, rfl⟩ := Option.map_eq_some'.mp hc
        exact ⟨hw, normalize_target_dimension_from_f64_even _ _ hch⟩
    · next c _ hc =>
        obtain ⟨cw, hcw, rfl⟩ := Option.map_eq_some'.mp hc
        exact ⟨normalize_target_dimension_from_f64_even _ _ hcw, hh⟩
    · exact pick_render_resolution_even aspect

/-- C7: `pick_render_resolution_with_override` always returns even
dimensions; when the override is absent or out of the `[240, 4320]` range it
default-picks from the aspect ratio (`≤ 0.68 → 1080×1920`,
`≥ 1.35 → 1920×1080`, otherwise `1080×1080`, with the quoted instances), and
otherwise returns the (evenized) override aligned to the aspect. -/
theorem pick_render_resolution_with_override_spec :
    (∀ (aspect : String) (ow oh : Option ℕ),
      Even (pick_render_resolution_with_override aspect ow oh).1 ∧
      Even (pick_render_resolution_with_override aspect ow oh).2) ∧
    (∀ (value : ℕ), normalize_target_dimension value = none ↔
      ¬(240 ≤ value ∧ value ≤ 4320)) ∧
    (∀ (aspect : String) (oh : Option ℕ),
      pick_render_resolution_with_override aspect none oh = pick_render_resolution aspect) ∧
    (∀ (aspect : String) (ow : Option ℕ),
      pick_render_resolution_with_override aspect ow none = pick_render_resolution aspect) ∧
    (∀ (aspect : String) (rw rh : ℕ),
      normalize_target_dimension rw = none ∨ normalize_target_dimension rh = none →
      pick_render_resolution_with_override aspect (some rw) (some rh) =
        pick_render_resolution aspect) ∧
    (∀ (aspect : String) (rw rh w h : ℕ),
      normalize_target_dimension rw = some w → normalize_target_dimension rh = some h →
      pick_render_resolution_with_override aspect (some rw) (some rh) =
        align_resolution_to_aspect aspect w h) ∧
    (∀ (aspect : String) (r : F64), parse_aspect_ratio aspect = some r →
      pick_render_resolution aspect =
        (if F64.le r (F64.fin (68/100 : ℚ)) then (1080, 1920)
         else if F64.le (F64.fin (135/100 : ℚ)) r then (1920, 1080)
         else (1080, 1080))) ∧
    pick_render_resolution "9:16" = (1080, 1920) ∧
    pick_render_resolution "16:9" = (1920, 1080) ∧
    pick_render_resolution "21:9" = (1920, 1080) ∧
    pick_render_resolution "1:1" = (1080, 1080) := by
  have haligned : ∀ (aspect : String) (rw rh w h : ℕ),
      normalize_target_dimension rw = some w → normalize_target_dimension rh = some h →
      pick_render_resolution_with_override aspect (some rw) (some rh) =
        align_resolution_to_aspect aspect w h := by
    intro aspect rw rh w h hrw hrh
    simp only [pick_render_resolution_with_override]
    rw [hrw, hrh]
  have hdefault : ∀ (aspect : String) (rw rh : ℕ),
      normalize_target_dimension rw = none ∨ normalize_target_dimension rh = none →
      pick_render_resolution_with_override aspect (some rw) (some rh) =
        pick_render_resolution aspect := by
    intro aspect rw rh h
    simp only [pick_render_resolution_with_override]
    rcases h with h | h
    · rw [h]
    · rcases hx : normalize_target_dimension rw with _ | w
      · rfl
      · rw [h]
  refine ⟨?_, normalize_target_dimension_none_iff, ?_, ?_, hdefault, haligned, ?_,
    by decide, by decide, by decide, by decide⟩
  · intro aspect ow oh
    rcases ow with _ | rw
    · exact pick_render_resolution_even aspect
    · rcases oh with _ | rh
      · exact pick_render_resolution_even aspect
      · rcases hrw : normalize_target_dimension rw with _ | w
        · rw [hdefault aspect rw rh (Or.inl hrw)]
          exact pick_render_resolution_even aspect
        · rcases hrh : normalize_target_dimension rh with _ | h
          · rw [hdefault aspect rw rh (Or.inr hrh)]
            exact pick_render_resolution_even aspect
          · rw [haligned aspect rw rh w h hrw hrh]
            exact align_resolution_to_aspect_even aspect w h
              (normalize_target_dimension_even rw w hrw)
              (normalize_target_dimension_even rh h hrh)
  · intro aspect oh; rcases oh <;> rfl
  · intro aspect ow; rcases ow <;> rfl
  · intro aspect r h
    simp only [pick_render_resolution, h, Option.getD_some]

/-- C7 witness: evenness and default selection at concrete inputs. -/
theorem pick_render_resolution_with_override_spec_witness :
    (Even (pick_render_resolution_with_override "9:16" (some 1000) (some 2000)).1 ∧
      Even (pick_render_resolution_with_override "9:16" (some 1000) (some 2000)).2) ∧
    pick_render_resolution_with_override "9:16" (some 100) (some 2000) =
      pick_render_resolution "9:16" :=
  ⟨pick_render_resolution_with_override_spec.1 "9:16" (some 1000) (some 2000),
   pick_render_resolution_with_override_spec.2.2.2.2.1 "9:16" 100 2000
     (Or.inl (by decide))⟩

/-! ## Claim C4: the sentence-boundary flush threshold -/

/-- C4 counterexample: with a profile of 6 words per line and 2 lines the
chunk word limit is `clamp(6·2, 3, 24) = 12`, so the code's flush threshold
is `max(12/2, 2) = 6`.  The claim's threshold `max(6/2, 2) = 3` is at most
the 4 words already chunked when the sentence-ending `"dd."` precedes
`"ee"`, so the claim predicts a flush — but the code keeps one chunk. -/
theorem chunk_limit_flush_counterexample :
    (clip_subtitle_chunks chunkLimitPayload sampleContext).map
        (List.map ClipSubtitleWord.text) = [["aa", "bb", "cc", "dd.", "ee"]] ∧
    effective_max_words_per_line chunkLimitPayload.render_profile sampleContext = 6 ∧
    effective_chunk_word_limit chunkLimitPayload.render_profile sampleContext = 12 ∧
    is_sentence_boundary_token "dd." = true ∧
    specSentenceFlushThreshold 6 ≤ 4 := by
  refine ⟨by decide, by decide, by decide, by decide, by decide⟩

/-- C4 (amended): when the current chunk is nonempty and neither the
overflow nor the large-gap condition holds, the chunking loop flushes before
the next word exactly when the previous word ends a sentence and the chunk
already holds at least `max(chunk_word_limit/2, 2)` entries, where
`chunk_word_limit = clamp(max_words_per_line · max_lines, 3, 24)` — not
`max(max_words_per_line/2, 2)`; in particular, at an effective
`max_words_per_line = 6` with one line (threshold 3), a '.'-ended 2-word
fragment does not flush and a 4-word fragment does. -/
theorem sentence_flush_characterization :
    (∀ (chunk_word_limit chunk_char_limit : ℕ) (st : ChunkState)
        (word : ClipSubtitleWord),
      st.current.isEmpty = false →
      chunk_has_overflow st.current st.chars
        (if st.current.isEmpty then charsCount word.text else charsCount word.text + 1)
        chunk_word_limit chunk_char_limit word = false →
      has_large_gap st.current word = false →
      ((chunk_step chunk_word_limit chunk_char_limit st word).chunks =
          st.chunks ++ [st.current] ↔
        ended_sentence_flush st.current chunk_word_limit = true)) ∧
    (∀ (current : List ClipSubtitleWord) (chunk_word_limit : ℕ),
      ended_sentence_flush current chunk_word_limit = true ↔
      ∃ previous, current.getLast? = some previous ∧
        is_sentence_boundary_token previous.text = true ∧
        max (chunk_word_limit / 2) 2 ≤ current.length) ∧
    effective_chunk_word_limit sampleRenderProfile sampleContext = 6 ∧
    (clip_subtitle_chunks twoWordFragmentPayload sampleContext).map
        (List.map ClipSubtitleWord.text) = [["aa", "bb.", "cc"]] ∧
    (clip_subtitle_chunks fourWordFragmentPayload sampleContext).map
        (List.map ClipSubtitleWord.text) = [["aa", "bb", "cc", "dd."], ["ee"]] := by
  refine ⟨?_, ?_, by decide, by decide, by decide⟩
  · intro chunk_word_limit chunk_char_limit st word hne hov hgap
    simp only [hne, Bool.false_eq_true, if_false] at hov
    by_cases hflush : ended_sentence_flush st.current chunk_word_limit
    · have hch : (chunk_step chunk_word_limit chunk_char_limit st word).chunks =
          st.chunks ++ [st.current] := by
        simp [chunk_step, hne, hov, hgap, hflush]
      exact iff_of_true hch hflush
    · have hflush' : ended_sentence_flush st.current chunk_word_limit = false :=
        Bool.eq_false_iff.mpr hflush
      have hch : (chunk_step chunk_word_limit chunk_char_limit st word).chunks =
          st.chunks := by
        simp [chunk_step, hne, hov, hgap, hflush']
      refine iff_of_false ?_ (by simp [hflush'])
      rw [hch]
      intro hcontra
      have hlen := congrArg List.length hcontra
      rw [List.length_append] at hlen
      simp at hlen
  · intro current chunk_word_limit
    unfold ended_sentence_flush
    cases hlast : current.getLast? with
    | none => simp
    | some previous => simp [hlast]

/-- C4 witness: the step-level characterization applied to a concrete
nonempty chunk state below the code's threshold. -/
theorem sentence_flush_characterization_witness :
    ((chunk_step 12 80
        { chunks := [], current := [⟨"dd.", 0, 1/10, false⟩], chars := 3 }
        ⟨"ee", 12/100, 22/100, false⟩).chunks =
      [] ++ [[⟨"dd.", 0, 1/10, false⟩]] ↔
      ended_sentence_flush [⟨"dd.", 0, 1/10, false⟩] 12 = true) :=
  sentence_flush_characterization.1 12 80
    { chunks := [], current := [⟨"dd.", 0, 1/10, false⟩], chars := 3 }
    ⟨"ee", 12/100, 22/100, false⟩ (by decide) (by decide) (by decide)

/-! ## Claim C6: ASS event times stay inside the clip window -/

theorem event_time_of_chunk_bounds (context : ClipSubtitleRenderContext)
    (max_words_per_line max_chars_per_line max_lines : ℕ)
    (chunk : List ClipSubtitleWord) (s e : ℚ)
    (h : event_time_of_chunk context max_words_per_line max_chars_per_line
      max_lines chunk = some (s, e)) :
    0 ≤ s ∧ s ≤ max (context.clip_end - context.clip_start) (1/10) ∧
    0 ≤ e ∧ e ≤ max (context.clip_end - context.clip_start) (1/10) ∧ s < e := by
  simp only [event_time_of_chunk] at h
  split_ifs at h with h1 h2
  have hdur : (0 : ℚ) ≤ max (context.clip_end - context.clip_start) (1/10) :=
    le_trans (by norm_num) (le_max_right _ _)
  have h' := (Option.some.injEq _ _).mp h
  rw [Prod.ext_iff] at h'
  obtain ⟨hs, he⟩ := h'
  push_neg at h2
  subst hs
  subst he
  refine ⟨qClamp_lower _ 0 _ hdur, qClamp_upper _ 0 _, qClamp_lower _ 0 _ hdur,
    qClamp_upper _ 0 _, by linarith⟩

/-- C6 counterexample: with `clip_end − clip_start = 0.05` a surviving word
produces an event whose end time `0.1` exceeds the window length (the code
clamps into `[0, max(clip_end − clip_start, 0.1)]`, not
`[0, clip_end − clip_start]`). -/
theorem short_clip_event_exceeds_window :
    clip_subtitle_events shortClipPayload shortClipContext = [(0, 1/10)] ∧
    shortClipContext.clip_start < shortClipContext.clip_end ∧
    shortClipContext.clip_end - shortClipContext.clip_start < 1/10 := by
  refine ⟨by decide, by decide, by decide⟩

/-- C6 (amended): for every subtitle payload and render context, every
Dialogue event produced by `build_clip_subtitle_ass_content` has start and
end times lying in `[0, max(clip_end − clip_start, 0.1)]` and every event's
end is strictly after its start (so for clips longer than 0.1 s the times
lie in `[0, clip_end − clip_start]` as claimed). -/
theorem clip_subtitle_events_bounds (subtitles : ClipBatchSubtitlePayload)
    (context : ClipSubtitleRenderContext) (s e : ℚ)
    (h : (s, e) ∈ clip_subtitle_events subtitles context) :
    0 ≤ s ∧ s ≤ max (context.clip_end - context.clip_start) (1/10) ∧
    0 ≤ e ∧ e ≤ max (context.clip_end - context.clip_start) (1/10) ∧ s < e := by
  unfold clip_subtitle_events at h
  rw [List.mem_filterMap] at h
  obtain ⟨chunk, _, hsome⟩ := h
  exact event_time_of_chunk_bounds context _ _ _ chunk s e hsome

/-- C6 witness: the bounds theorem applied to the event of the short-clip
payload. -/
theorem clip_subtitle_events_bounds_witness :
    (0 : ℚ) ≤ 0 ∧
    (0 : ℚ) ≤ max (shortClipContext.clip_end - shortClipContext.clip_start) (1/10) ∧
    (0 : ℚ) ≤ 1/10 ∧
    (1/10 : ℚ) ≤ max (shortClipContext.clip_end - shortClipContext.clip_start) (1/10) ∧
    (0 : ℚ) < 1/10 :=
  clip_subtitle_events_bounds shortClipPayload shortClipContext 0 (1/10) (by decide)

/-! ## Claim C5: settings save/load round trip -/

theorem dropWhile_dropWhile (p : Char → Bool) (l : List Char) :
    (l.dropWhile p).dropWhile p = l.dropWhile p := by
  induction l with
  | nil => rfl
  | cons a t ih =>
      by_cases h : p a
      · simp [List.dropWhile_cons, h, ih]
      · simp [List.dropWhile_cons, h]

theorem rustTrimList_idem (l : List Char) :
    rustTrimList (rustTrimList l) = rustTrimList l := by
  unfold rustTrimList
  set p := isRustWhitespace with hp
  set A := l.dropWhile p with hA
  have hAdrop : A.dropWhile p = A := dropWhile_dropWhile p l
  set R := A.reverse.dropWhile p with hR
  have hRdrop : R.dropWhile p = R := dropWhile_dropWhile p A.reverse
  have hBdrop : R.reverse.dropWhile p = R.reverse := by
    obtain ⟨t, ht⟩ := List.dropWhile_suffix (l := A.reverse) p
    have hApre : R.reverse ++ t.reverse = A := by
      have hrev := congrArg List.reverse ht
      simpa [List.reverse_append] using hrev
    cases hB : R.reverse with
    | nil => simp
    | cons b bs =>
        have hAeq : A = b :: (bs ++ t.reverse) := by
          rw [← hApre, hB]
          simp
        have hpb : p b = false := by
          cases hpbv : p b with
          | false => rfl
          | true =>
              exfalso
              have hcontra := hAdrop
              rw [hAeq, List.dropWhile_cons, if_pos hpbv] at hcontra
              have hlen := congrArg List.length hcontra
              have hle := (List.dropWhile_suffix (l := bs ++ t.reverse) p).length_le
              simp only [List.length_cons] at hlen
              omega
        rw [List.dropWhile_cons, if_neg (by simp [hpb])]
  calc ((R.reverse.dropWhile p).reverse.dropWhile p).reverse
      = ((R.reverse).reverse.dropWhile p).reverse := by rw [hBdrop]
    _ = (R.dropWhile p).reverse := by rw [List.reverse_reverse]
    _ = R.reverse := by rw [hRdrop]

theorem rustTrim_idem (s : String) : rustTrim (rustTrim s) = rustTrim s := by
  unfold rustTrim
  exact congrArg String.mk (rustTrimList_idem s.data)

theorem sanitize_optional_path_idem (v w : Option String)
    (h : sanitize_optional_path v = .ok w) : sanitize_optional_path w = .ok w := by
  match v with
  | none =>
      obtain rfl : (none : Option String) = w := by
        simpa [sanitize_optional_path] using h
      rfl
  | some raw =>
      simp only [sanitize_optional_path] at h
      split_ifs at h with h1 h2 h3
      · obtain rfl : (none : Option String) = w := by simpa using h
        rfl
      · obtain rfl : some (rustTrim raw) = w := by simpa using h
        simp only [sanitize_optional_path]
        rw [rustTrim_idem]
        rw [if_neg h1, if_neg h2, if_neg h3]

theorem normalize_settings_ok (s n : RuntimeToolsSettings)
    (h : normalize_settings s = .ok n) :
    ∃ y f fp r, sanitize_optional_path s.ytdlp_custom_path = .ok y ∧
      sanitize_optional_path s.ffmpeg_custom_path = .ok f ∧
      sanitize_optional_path s.ffprobe_custom_path = .ok fp ∧
      sanitize_optional_path s.projects_root_dir = .ok r ∧
      n = { s with
            ytdlp_mode :=
              if rustToLowercase (rustTrim s.ytdlp_mode) ≠ "managed" ∧
                  rustToLowercase (rustTrim s.ytdlp_mode) ≠ "custom" ∧
                  rustToLowercase (rustTrim s.ytdlp_mode) ≠ "system" then "managed"
              else rustToLowercase (rustTrim s.ytdlp_mode),
            ytdlp_custom_path := y, ffmpeg_custom_path := f,
            ffprobe_custom_path := fp, projects_root_dir := r,
            ui_language :=
              if rustToLowercase (rustTrim s.ui_language) ≠ "en" ∧
                  rustToLowercase (rustTrim s.ui_language) ≠ "ru" then "en"
              else rustToLowercase (rustTrim s.ui_language) } := by
  unfold normalize_settings at h
  cases h1 : sanitize_optional_path s.ytdlp_custom_path with
  | error e => rw [h1] at h; simp [Bind.bind, Except.bind] at h
  | ok y =>
      rw [h1] at h
      simp only [Bind.bind, Except.bind] at h
      cases h2 : sanitize_optional_path s.ffmpeg_custom_path with
      | error e => rw [h2] at h; simp at h
      | ok f =>
          rw [h2] at h
          cases h3 : sanitize_optional_path s.ffprobe_custom_path with
          | error e => rw [h3] at h; simp at h
          | ok fp =>
              rw [h3] at h
              cases h4 : sanitize_optional_path s.projects_root_dir with
              | error e => rw [h4] at h; simp at h
              | ok r =>
                  rw [h4] at h
                  simp only [Except.ok.injEq] at h
                  exact ⟨y, f, fp, r, rfl, rfl, rfl, rfl, h.symm⟩

theorem mode_pass_stable (m : String)
    (hm : m = "managed" ∨ m = "custom" ∨ m = "system") :
    (if rustToLowercase (rustTrim m) ≠ "managed" ∧
        rustToLowercase (rustTrim m) ≠ "custom" ∧
        rustToLowercase (rustTrim m) ≠ "system" then "managed"
     else rustToLowercase (rustTrim m)) = m := by
  rcases hm with rfl | rfl | rfl <;> decide

theorem mode_first_pass_mem (m0 : String) :
    (if m0 ≠ "managed" ∧ m0 ≠ "custom" ∧ m0 ≠ "system" then "managed" else m0) = "managed" ∨
    (if m0 ≠ "managed" ∧ m0 ≠ "custom" ∧ m0 ≠ "system" then "managed" else m0) = "custom" ∨
    (if m0 ≠ "managed" ∧ m0 ≠ "custom" ∧ m0 ≠ "system" then "managed" else m0) = "system" := by
  by_cases hc : m0 ≠ "managed" ∧ m0 ≠ "custom" ∧ m0 ≠ "system"
  · left; rw [if_pos hc]
  · rw [if_neg hc]
    by_cases e1 : m0 = "managed"
    · exact Or.inl e1
    · by_cases e2 : m0 = "custom"
      · exact Or.inr (Or.inl e2)
      · by_cases e3 : m0 = "system"
        · exact Or.inr (Or.inr e3)
        · exact absurd ⟨e1, e2, e3⟩ hc

theorem lang_pass_stable (m : String) (hm : m = "en" ∨ m = "ru") :
    (if rustToLowercase (rustTrim m) ≠ "en" ∧
        rustToLowercase (rustTrim m) ≠ "ru" then "en"
     else rustToLowercase (rustTrim m)) = m := by
  rcases hm with rfl | rfl <;> decide

theorem lang_first_pass_mem (m0 : String) :
    (if m0 ≠ "en" ∧ m0 ≠ "ru" then "en" else m0) = "en" ∨
    (if m0 ≠ "en" ∧ m0 ≠ "ru" then "en" else m0) = "ru" := by
  by_cases hc : m0 ≠ "en" ∧ m0 ≠ "ru"
  · left; rw [if_pos hc]
  · rw [if_neg hc]
    by_cases e1 : m0 = "en"
    · exact Or.inl e1
    · by_cases e2 : m0 = "ru"
      · exact Or.inr e2
      · exact absurd ⟨e1, e2⟩ hc

theorem normalize_settings_idem (s n : RuntimeToolsSettings)
    (h : normalize_settings s = .ok n) : normalize_settings n = .ok n := by
  obtain ⟨y, f, fp, r, h1, h2, h3, h4, rfl⟩ := normalize_settings_ok s n h
  have hy := sanitize_optional_path_idem _ _ h1
  have hf := sanitize_optional_path_idem _ _ h2
  have hfp := sanitize_optional_path_idem _ _ h3
  have hr := sanitize_optional_path_idem _ _ h4
  unfold normalize_settings
  simp only [Bind.bind, Except.bind, hy, hf, hfp, hr, Except.ok.injEq]
  refine RuntimeToolsSettings.mk.injEq _ _ _ _ _ _ _ _ _ _ _ _ _ _ _ _ |>.mpr ?_
  refine ⟨?_, rfl, rfl, rfl, rfl, rfl, rfl, ?_⟩
  · exact mode_pass_stable _ (mode_first_pass_mem (rustToLowercase (rustTrim s.ytdlp_mode)))
  · exact lang_pass_stable _ (lang_first_pass_mem (rustToLowercase (rustTrim s.ui_language)))

theorem jsonOptString_optStringToJson (o : Option String) :
    jsonOptString (some (optStringToJson o)) = .ok o := by
  cases o <;> rfl

theorem settingsFromJson_settingsToJson (s : RuntimeToolsSettings) :
    settingsFromJson (settingsToJson s) = .ok s := by
  obtain ⟨m, y, f, fp, r, au, pb, ui⟩ := s
  rcases y with _ | y <;> rcases f with _ | f <;> rcases fp with _ | fp <;>
    rcases r with _ | r <;> rfl

/-- C5: saving `RuntimeToolsSettings` and loading them back yields exactly
the normalization of the input: `normalize_settings` is idempotent and the
value survives the JSON serialize/deserialize round trip; in particular any
`ytdlp_mode` outside `{managed, custom, system}` after trimming and
lowercasing round-trips to `"managed"`. -/
theorem save_then_load_spec (s n : RuntimeToolsSettings)
    (h : normalize_settings s = .ok n) :
    save_then_load s = .ok n ∧ normalize_settings n = .ok n ∧
    (rustToLowercase (rustTrim s.ytdlp_mode) ∉
        (["managed", "custom", "system"] : List String) →
      n.ytdlp_mode = "managed") := by
  have hidem := normalize_settings_idem s n h
  refine ⟨?_, hidem, ?_⟩
  · unfold save_then_load save_settings_internal load_settings
    rw [h]
    simp only [Except.map, Bind.bind, Except.bind]
    rw [settingsFromJson_settingsToJson]
    exact hidem
  · intro hmode
    simp only [List.mem_cons, List.not_mem_nil, or_false, not_or] at hmode
    obtain ⟨y, f, fp, r, h1, h2, h3, h4, rfl⟩ := normalize_settings_ok s n h
    show (if _ then "managed" else _) = "managed"
    rw [if_pos ⟨hmode.1, hmode.2.1, hmode.2.2⟩]

/-- C5 witness: a settings value with `ytdlp_mode = " MANAGED-ish "` and
`ui_language = "EN"` saved and loaded back equals its normalization, whose
mode fell back to `"managed"`. -/
theorem save_then_load_spec_witness :
    save_then_load
        { ytdlp_mode := " MANAGED-ish ", ytdlp_custom_path := some "  /a/b ",
          ffmpeg_custom_path := none, ffprobe_custom_path := none,
          projects_root_dir := none, auto_update_ytdlp := true,
          prefer_bundled_ffmpeg := true, ui_language := "EN" } =
      .ok { ytdlp_mode := "managed", ytdlp_custom_path := some "/a/b",
            ffmpeg_custom_path := none, ffprobe_custom_path := none,
            projects_root_dir := none, auto_update_ytdlp := true,
            prefer_bundled_ffmpeg := true, ui_language := "en" } ∧
    ({ ytdlp_mode := "managed", ytdlp_custom_path := some "/a/b",
       ffmpeg_custom_path := none, ffprobe_custom_path := none,
       projects_root_dir := none, auto_update_ytdlp := true,
       prefer_bundled_ffmpeg := true,
       ui_language := "en" } : RuntimeToolsSettings).ytdlp_mode = "managed" := by
  have hs := save_then_load_spec
    { ytdlp_mode := " MANAGED-ish ", ytdlp_custom_path := some "  /a/b ",
      ffmpeg_custom_path := none, ffprobe_custom_path := none,
      projects_root_dir := none, auto_update_ytdlp := true,
      prefer_bundled_ffmpeg := true, ui_language := "EN" }
    { ytdlp_mode := "managed", ytdlp_custom_path := some "/a/b",
      ffmpeg_custom_path := none, ffprobe_custom_path := none,
      projects_root_dir := none, auto_update_ytdlp := true,
      prefer_bundled_ffmpeg := true, ui_language := "en" }
    (by rfl)
  exact ⟨hs.1, hs.2.2 (by decide)⟩

end CursedClipper
